import Mathlib

/- Verification development for the backuphelper core.

   The definitions below are shallow embeddings of the program's data model
   and operations: the task status machine (src/core/Types.hpp), the backup
   task control flow (src/core/tasks/BackupTask.cpp), the path-exclusion
   filter (src/core/Filter.cpp), the copy decision of FileSystem::copyFile
   (src/utils/FileSystem.cpp), the Huffman codec
   (src/utils/HuffmanCompressor.cpp), the package codec
   (src/utils/FilePackager.cpp), the symlink retargeting of
   BackupTask::execute and the tree walker FileSystem::getAllFiles.

   Paths are modelled as lists of characters (for string-level operations)
   or lists of path components (for the tree walker); bytes are natural
   numbers below 256; machine integers are naturals with explicit
   little-endian byte encodings where the on-disk format matters. -/

/- Common characters. The program runs its path normalization with the
   POSIX preferred separator. -/

def sepChar : Char := '/'

def backslashChar : Char := '\\'

/- TaskStatus, exactly as enumerated in src/core/Types.hpp lines 4 to 9.
   The enum has four values; there is no cancelled state. -/

inductive TaskStatus
  | pending
  | running
  | completed
  | failed
deriving DecidableEq

/- The toString helper of src/core/Types.hpp lines 17 to 25. -/

def TaskStatus.toString : TaskStatus → String
  | TaskStatus.pending => "PENDING"
  | TaskStatus.running => "RUNNING"
  | TaskStatus.completed => "COMPLETED"
  | TaskStatus.failed => "FAILED"

/- The status name that the test suite (src/TaskTests.cpp, BackupTaskInterrupt)
   expects for an interrupted task. -/

def cancelledName : String := "CANCELLED"

/- Branch conditions met during one run of BackupTask::execute
   (src/core/tasks/BackupTask.cpp lines 12 to 345): whether the source
   directory exists, whether the destination directories can be created,
   whether the filtered file list is empty, whether any per-entry
   materialization fails, the packaging and encryption switches, and
   whether the packaging and encryption steps succeed. -/

structure BackupRunConditions where
  sourceExists : Bool
  destDirsCreatable : Bool
  filteredEmpty : Bool
  anyEntryFails : Bool
  packageEnabled : Bool
  packageSucceeds : Bool
  passwordNonempty : Bool
  encryptSucceeds : Bool
deriving DecidableEq

/- Control flow of BackupTask::execute (src/core/tasks/BackupTask.cpp).
   The returned pair is the boolean return value and the final task status.
   The interruptRequested argument models the external cancel signal that
   the test suite passes as a constructor argument; the source's execute
   accepts no such flag and consults nothing of the kind, which is why the
   argument is never read. -/

def BackupTask.execute (c : BackupRunConditions) (interruptRequested : Bool) :
    Bool × TaskStatus :=
  if !c.sourceExists then (false, TaskStatus.failed)
  else if !c.destDirsCreatable then (false, TaskStatus.failed)
  else if c.filteredEmpty then (true, TaskStatus.completed)
  else if c.anyEntryFails then (false, TaskStatus.failed)
  else if c.packageEnabled then
    if !c.packageSucceeds then (false, TaskStatus.failed)
    else if c.passwordNonempty && !c.encryptSucceeds then (false, TaskStatus.failed)
    else (true, TaskStatus.completed)
  else if c.passwordNonempty && !c.encryptSucceeds then (false, TaskStatus.failed)
  else (true, TaskStatus.completed)

/- Path normalization used by PathFilter::addExcludedPath,
   removeExcludedPath and isPathExcluded (src/core/Filter.cpp lines 5 to 61):
   make the path absolute, replace both separator styles by the preferred
   separator, and append a trailing separator when missing. -/

def sepMap (c : Char) : Char :=
  if c == sepChar || c == backslashChar then sepChar else c

def mapSeparators (s : List Char) : List Char :=
  s.map sepMap

def isAbsolutePath (s : List Char) : Bool :=
  match s with
  | [] => false
  | c :: _ => c == sepChar

/- Model of fs::absolute on POSIX: an absolute path is returned unchanged,
   a relative one is appended to the current working directory. -/

def fsAbsolute (cwd s : List Char) : List Char :=
  if isAbsolutePath s then s else cwd ++ sepChar :: s

def endsWithSep (s : List Char) : Bool :=
  match s.getLast? with
  | some c => c == sepChar
  | none => false

def PathFilter.normalizePath (cwd s : List Char) : List Char :=
  if endsWithSep (mapSeparators (fsAbsolute cwd s)) then mapSeparators (fsAbsolute cwd s)
  else mapSeparators (fsAbsolute cwd s) ++ [sepChar]

/- PathFilter::removeExcludedPath (src/core/Filter.cpp lines 22 to 44):
   the normalized path is erased from the stored list when present, and the
   function returns true no matter what. -/

def PathFilter.removeExcludedPath (cwd : List Char) (excludedPaths : List (List Char))
    (p : List Char) : List (List Char) × Bool :=
  (excludedPaths.erase (PathFilter.normalizePath cwd p), true)

/- PathFilter::isPathExcluded (src/core/Filter.cpp lines 46 to 61):
   membership of the normalized path in the stored list. -/

def PathFilter.isPathExcluded (cwd : List Char) (excludedPaths : List (List Char))
    (p : List Char) : Bool :=
  excludedPaths.contains (PathFilter.normalizePath cwd p)

/- State of the destination path before FileSystem::copyFile runs: absent,
   an existing symlink, or an existing regular file with content and
   modification time. -/

inductive DestState
  | absent
  | symlinkDest (target : List Char)
  | fileDest (content : List Nat) (mtime : Int)
deriving DecidableEq

/- FileSystem::calculateFileHash (src/utils/FileSystem.cpp lines 553 to 578)
   for a readable file: the string made of the file size, a colon, and the
   raw modification-time counter. No file content is read. -/

def calculateFileHash (size : Nat) (mtime : Int) : List Char :=
  (Nat.repr size).toList ++ ':' :: (Int.repr mtime).toList

/- The regular-file branch of FileSystem::copyFile
   (src/utils/FileSystem.cpp lines 120 to 151) on an existing, readable
   source: if the destination is a symlink the copy is skipped with success;
   if the destination exists and both hashes agree the copy is skipped with
   success; otherwise the destination is overwritten with the source's
   content and the source's timestamp is applied. I/O failures of the
   actual copy are outside this model. -/

def FileSystem.copyFile (srcContent : List Nat) (srcMtime : Int) (dest : DestState) :
    Bool × DestState :=
  match dest with
  | DestState.symlinkDest t => (true, DestState.symlinkDest t)
  | DestState.fileDest c m =>
      if calculateFileHash srcContent.length srcMtime == calculateFileHash c.length m then
        (true, DestState.fileDest c m)
      else
        (true, DestState.fileDest srcContent srcMtime)
  | DestState.absent => (true, DestState.fileDest srcContent srcMtime)

/- Little-endian 32-bit byte encoding, as produced by
   HuffmanCompressor::writeIntToFile and the frequency writes
   (src/utils/HuffmanCompressor.cpp lines 187 to 189, 331 to 336). -/

def toLE32 (n : Nat) : List Nat :=
  [n % 256, n / 256 % 256, n / 65536 % 256, n / 16777216 % 256]

/- Frequency table of the input: one entry per distinct byte with its
   count. The unordered_map iteration order of compressFile is modelled as
   ascending byte value; the tie-break comparator makes the built tree
   independent of this order. -/

def freqTable (data : List Nat) : List (Nat × Nat) :=
  (List.range 256).filterMap
    (fun b => if data.contains b then some (b, data.count b) else none)

/- HuffmanNode (src/utils/HuffmanCompressor.hpp lines 10 to 34): leaves
   carry a byte value, internal nodes two children; every node carries its
   frequency and the creation-order id used by the comparator. -/

inductive HuffmanNode
  | leaf (data : Nat) (freq : Nat) (id : Nat)
  | node (freq : Nat) (id : Nat) (left : HuffmanNode) (right : HuffmanNode)
deriving DecidableEq

def HuffmanNode.freq : HuffmanNode → Nat
  | HuffmanNode.leaf _ f _ => f
  | HuffmanNode.node f _ _ _ => f

def HuffmanNode.isLeaf : HuffmanNode → Bool
  | HuffmanNode.leaf _ _ _ => true
  | HuffmanNode.node _ _ _ _ => false

def HuffmanNode.tieKey : HuffmanNode → Nat
  | HuffmanNode.leaf d _ _ => d
  | HuffmanNode.node _ i _ _ => i

/- Pop order induced by the Compare functor
   (src/utils/HuffmanCompressor.hpp lines 37 to 57): lower frequency first;
   on equal frequency leaves precede internal nodes, leaves order by byte
   value, internal nodes by creation id. This is a total strict order, so
   the heap's pop sequence is uniquely determined. -/

def HuffmanNode.before (l r : HuffmanNode) : Bool :=
  if l.freq ≠ r.freq then Nat.blt l.freq r.freq
  else if l.isLeaf && !r.isLeaf then true
  else if !l.isLeaf && r.isLeaf then false
  else Nat.blt l.tieKey r.tieKey

/- The priority queue, modelled as a list sorted by pop order. -/

def heapInsert (n : HuffmanNode) : List HuffmanNode → List HuffmanNode
  | [] => [n]
  | m :: t => if HuffmanNode.before n m then n :: m :: t else m :: heapInsert n t

def initialHeap (ft : List (Nat × Nat)) : List HuffmanNode :=
  (ft.enum.map (fun e => HuffmanNode.leaf e.2.1 e.2.2 e.1)).foldl
    (fun h n => heapInsert n h) []

/- The merge loop of HuffmanCompressor::buildHuffmanTree
   (src/utils/HuffmanCompressor.cpp lines 56 to 86): pop the two smallest
   nodes, push a fresh internal node with their combined frequency. The
   fuel argument bounds the number of merges; one unit per initial entry
   suffices since each merge shrinks the heap by one. -/

def buildLoop : Nat → Nat → List HuffmanNode → Option HuffmanNode
  | _, _, [] => none
  | _, _, [t] => some t
  | 0, _, _ :: _ :: _ => none
  | fuel + 1, nextId, a :: b :: rest =>
      buildLoop fuel (nextId + 1)
        (heapInsert (HuffmanNode.node (a.freq + b.freq) nextId a b) rest)

def buildHuffmanTree (ft : List (Nat × Nat)) : Option HuffmanNode :=
  buildLoop ft.length ft.length (initialHeap ft)

/- HuffmanCompressor::generateCodes
   (src/utils/HuffmanCompressor.cpp lines 106 to 120): left edges append a
   0 bit, right edges a 1 bit; a leaf stores the accumulated code, so a
   single-leaf tree yields the empty code. -/

def generateCodes : HuffmanNode → List Bool → List (Nat × List Bool)
  | HuffmanNode.leaf b _ _, code => [(b, code)]
  | HuffmanNode.node _ _ l r, code =>
      generateCodes l (code ++ [false]) ++ generateCodes r (code ++ [true])

/- Lookup in the code table; a missing byte yields the empty code exactly
   like operator[] on the C++ map (never reached for bytes of the input). -/

def codeOf (codes : List (Nat × List Bool)) (b : Nat) : List Bool :=
  match codes.find? (fun e => e.1 == b) with
  | some e => e.2
  | none => []

/- Bit packing of compressFile (src/utils/HuffmanCompressor.cpp lines
   261 to 288): bits fill each byte MSB first; a final incomplete byte is
   left-shifted so the used bits sit in the high positions. -/

def packLoop : List Bool → Nat → Nat → List Nat
  | [], cur, cnt => if 0 < cnt then [cur * 2 ^ (8 - cnt)] else []
  | b :: t, cur, cnt =>
      if cnt + 1 == 8 then (cur * 2 + (if b then 1 else 0)) :: packLoop t 0 0
      else packLoop t (cur * 2 + (if b then 1 else 0)) (cnt + 1)

def bitsToBytes (bits : List Bool) : List Nat :=
  packLoop bits 0 0

/- Trailing padding of the last code byte
   (src/utils/HuffmanCompressor.cpp line 322). -/

def paddingBits (totalBits : Nat) : Nat :=
  if totalBits % 8 == 0 then 0 else 8 - totalBits % 8

/- Header layout written by compressFile (src/utils/HuffmanCompressor.cpp
   lines 320 to 339): one padding byte, one byte holding the number of
   distinct symbols, then byte-frequency pairs, then the 32-bit original
   size. The symbol count is written through a cast to unsigned char. -/

def huffmanHeader (ft : List (Nat × Nat)) (padding originalSize : Nat) : List Nat :=
  padding :: ft.length % 256 :: (ft.flatMap (fun e => e.1 :: toLE32 e.2) ++ toLE32 originalSize)

/- HuffmanCompressor::compressFile (src/utils/HuffmanCompressor.cpp lines
   197 to 358) on the byte sequence of the input file. Returning some
   models a true return with the given output file content; none models a
   false return. Inputs shorter than 512 bytes are copied raw, as are
   inputs with more than 128 distinct bytes and inputs whose header plus
   body would not be smaller than the input. -/

def HuffmanCompressor.compressFile (data : List Nat) : Option (List Nat) :=
  if data.length < 512 then some data
  else if data.length == 0 then none
  else
    if 128 < (freqTable data).length then some data
    else
      match buildHuffmanTree (freqTable data) with
      | none => none
      | some root =>
          let body := bitsToBytes (data.flatMap (codeOf (generateCodes root [])))
          if data.length ≤ 1 + 1 + (freqTable data).length * 5 + 4 + body.length then
            some data
          else
            some (huffmanHeader (freqTable data)
                    (paddingBits (data.flatMap (codeOf (generateCodes root []))).length)
                    data.length ++ body)

/- Frequency-table parsing of decompressFile
   (src/utils/HuffmanCompressor.cpp lines 379 to 387): one byte plus a
   32-bit little-endian frequency per entry. -/

def parseFreqEntries : Nat → List Nat → Option (List (Nat × Nat) × List Nat)
  | 0, rest => some ([], rest)
  | k + 1, b :: f0 :: f1 :: f2 :: f3 :: rest =>
      match parseFreqEntries k rest with
      | some (t, r) => some ((b, f0 + 256 * f1 + 65536 * f2 + 16777216 * f3) :: t, r)
      | none => none
  | _ + 1, _ => none

/- One byte rendered MSB first, and bytesToBitString
   (src/utils/HuffmanCompressor.cpp lines 164 to 185): the last byte drops
   its padding low bits. -/

def byteToBits (b : Nat) : List Bool :=
  (List.range 8).map (fun i => b / 2 ^ (7 - i) % 2 == 1)

def bytesToBitList : List Nat → Nat → List Bool
  | [], _ => []
  | [b], padding => (byteToBits b).take (8 - padding)
  | b :: t, padding => byteToBits b ++ bytesToBitList t padding

/- The decode walk of decompressFile (src/utils/HuffmanCompressor.cpp
   lines 406 to 424): each bit steps left or right from the current node;
   reaching a leaf emits its byte and restarts from the root; decoding
   stops early once originalSize bytes are out. Stepping from a leaf
   dereferences a null child in the source and is modelled as failure. -/

def decodeBits (root : HuffmanNode) :
    HuffmanNode → List Bool → Nat → List Nat → Option (List Nat)
  | _, [], _, acc => some acc.reverse
  | HuffmanNode.leaf _ _ _, _ :: _, _, _ => none
  | HuffmanNode.node _ _ l r, bit :: rest, orig, acc =>
      match if bit then r else l with
      | HuffmanNode.leaf b _ _ =>
          if (b :: acc).length == orig then some (b :: acc).reverse
          else decodeBits root root rest orig (b :: acc)
      | HuffmanNode.node f i cl cr =>
          decodeBits root (HuffmanNode.node f i cl cr) rest orig acc

/- HuffmanCompressor::decompressFile (src/utils/HuffmanCompressor.cpp
   lines 360 to 458) on the byte sequence of the compressed file: parse
   padding, symbol count, frequency table and original size, rebuild the
   tree with the same comparator, decode the body, and fail when the
   decoded length does not match the recorded original size. -/

def HuffmanCompressor.decompressFile (input : List Nat) : Option (List Nat) :=
  match input with
  | padding :: charCount :: rest =>
      match parseFreqEntries charCount rest with
      | none => none
      | some (ft, rest2) =>
          match rest2 with
          | s0 :: s1 :: s2 :: s3 :: body =>
              match buildHuffmanTree ft with
              | none => none
              | some root =>
                  match decodeBits root root (bytesToBitList body padding)
                          (s0 + 256 * s1 + 65536 * s2 + 16777216 * s3) [] with
                  | none => none
                  | some decoded =>
                      if decoded.length == s0 + 256 * s1 + 65536 * s2 + 16777216 * s3 then
                        some decoded
                      else none
          | _ => none
  | _ => none

/- FileSystem::compressFile (src/utils/FileSystem.cpp lines 334 to 380),
   the pipeline wrapper: run the codec, then delete the output and report
   failure when it is not smaller than the original. -/

def FileSystem.compressFile (data : List Nat) : Option (List Nat) :=
  match HuffmanCompressor.compressFile data with
  | none => none
  | some out => if data.length ≤ out.length then none else some out

/- Little-endian byte encoding of a k-byte machine integer, as produced by
   the raw writes of FilePackager::writeMetadata and packageFiles. -/

def toLEBytes : Nat → Nat → List Nat
  | 0, _ => []
  | k + 1, n => n % 256 :: toLEBytes k (n / 256)

/- FileMetadata (src/utils/FilePackager.hpp lines 11 to 21). Strings are
   byte lists; the bool isCompressed is the byte written for it. -/

structure FileMetadata where
  filename : List Nat
  fileSize : Nat
  offset : Nat
  isCompressed : Nat
  permissions : Nat
  creationTime : Nat
  lastModifiedTime : Nat
  lastAccessTime : Nat
  fileType : Nat
  symlinkTarget : List Nat
deriving DecidableEq

/- One record as written by FilePackager::writeMetadata
   (src/utils/FilePackager.cpp lines 461 to 503): u32 name length, name
   bytes, u64 size, u64 offset, u8 compressed flag, u32 permissions, three
   u64 timestamps, u16 type, u32 symlink-target length, target bytes. -/

def writeMetadataRecord (m : FileMetadata) : List Nat :=
  toLEBytes 4 m.filename.length ++ m.filename
    ++ toLEBytes 8 m.fileSize ++ toLEBytes 8 m.offset
    ++ toLEBytes 1 m.isCompressed ++ toLEBytes 4 m.permissions
    ++ toLEBytes 8 m.creationTime ++ toLEBytes 8 m.lastModifiedTime
    ++ toLEBytes 8 m.lastAccessTime ++ toLEBytes 2 m.fileType
    ++ toLEBytes 4 m.symlinkTarget.length ++ m.symlinkTarget

def FilePackager.writeMetadata (ms : List FileMetadata) : List Nat :=
  toLEBytes 4 ms.length ++ ms.flatMap writeMetadataRecord

/- One input entry of FilePackager::packageFiles: the relative filename,
   the file type code, the loaded content (used only for regular files) and
   the metadata captured from the File object. -/

structure PackInput where
  filename : List Nat
  fileType : Nat
  content : List Nat
  isCompressed : Nat
  permissions : Nat
  creationTime : Nat
  lastModifiedTime : Nat
  lastAccessTime : Nat
  symlinkTarget : List Nat
deriving DecidableEq

/- The content-streaming loop of FilePackager::packageFiles
   (src/utils/FilePackager.cpp lines 89 to 123): every entry records the
   current write offset; only regular entries (type 0) append their bytes
   and carry their length as size, all others carry size 0. -/

def packAccum : List PackInput → Nat → List Nat × List FileMetadata
  | [], _ => ([], [])
  | e :: t, off =>
      let c := if e.fileType == 0 then e.content else []
      let rest := packAccum t (off + c.length)
      (c ++ rest.1,
       { filename := e.filename, fileSize := c.length, offset := off,
         isCompressed := e.isCompressed, permissions := e.permissions,
         creationTime := e.creationTime, lastModifiedTime := e.lastModifiedTime,
         lastAccessTime := e.lastAccessTime, fileType := e.fileType,
         symlinkTarget := e.symlinkTarget } :: rest.2)

/- FilePackager::packageFiles (src/utils/FilePackager.cpp lines 77 to 145)
   with the final seek-and-patch of the metadata offset applied. -/

def FilePackager.packageFiles (es : List PackInput) : List Nat :=
  toLEBytes 8 (8 + (packAccum es 8).1.length) ++ (packAccum es 8).1
    ++ FilePackager.writeMetadata (packAccum es 8).2

/- The same encoder when the run stops before the patch step: the
   eight-byte placeholder written at the start (line 86 to 87) still holds
   the value 0. -/

def FilePackager.packageFilesUnpatched (es : List PackInput) : List Nat :=
  toLEBytes 8 0 ++ (packAccum es 8).1
    ++ FilePackager.writeMetadata (packAccum es 8).2

/- Bounded reads from the package byte list. The source's ifstream reads
   set the fail state when crossing the end of the file; out-of-range reads
   are modelled as failure (every read taken by the claims below is in
   bounds). -/

def readBytesAt (pkg : List Nat) (off k : Nat) : Option (List Nat) :=
  if off + k ≤ pkg.length then some ((pkg.drop off).take k) else none

def natOfLE (l : List Nat) : Nat :=
  l.foldr (fun b acc => b % 256 + 256 * acc) 0

def readLEAt (pkg : List Nat) (off k : Nat) : Option Nat :=
  (readBytesAt pkg off k).map natOfLE

/- One record as read by FilePackager::readMetadata
   (src/utils/FilePackager.cpp lines 512 to 547), returning the record and
   the offset just past it. -/

def readMetadataRecordAt (pkg : List Nat) (off : Nat) : Option (FileMetadata × Nat) := do
  let nameLen ← readLEAt pkg off 4
  let name ← readBytesAt pkg (off + 4) nameLen
  let o := off + 4 + nameLen
  let size ← readLEAt pkg o 8
  let offs ← readLEAt pkg (o + 8) 8
  let isC ← readLEAt pkg (o + 16) 1
  let perms ← readLEAt pkg (o + 17) 4
  let ct ← readLEAt pkg (o + 21) 8
  let mt ← readLEAt pkg (o + 29) 8
  let atime ← readLEAt pkg (o + 37) 8
  let ftype ← readLEAt pkg (o + 45) 2
  let symLen ← readLEAt pkg (o + 47) 4
  let sym ← readBytesAt pkg (o + 51) symLen
  some ({ filename := name, fileSize := size, offset := offs, isCompressed := isC,
          permissions := perms, creationTime := ct, lastModifiedTime := mt,
          lastAccessTime := atime, fileType := ftype, symlinkTarget := sym },
        o + 51 + symLen)

def readMetadataLoop (pkg : List Nat) : Nat → Nat → Option (List FileMetadata)
  | 0, _ => some []
  | k + 1, off =>
      match readMetadataRecordAt pkg off with
      | none => none
      | some (m, off2) => (readMetadataLoop pkg k off2).map (fun t => m :: t)

/- FilePackager::readMetadata (src/utils/FilePackager.cpp lines 505 to
   555): a u32 count followed by that many records. -/

def FilePackager.readMetadata (pkg : List Nat) (off : Nat) : Option (List FileMetadata) := do
  let count ← readLEAt pkg off 4
  readMetadataLoop pkg count (off + 4)

/- The per-record extraction loop of FilePackager::unpackFiles
   (src/utils/FilePackager.cpp lines 262 to 449): a regular record streams
   fileSize bytes from its recorded offset (failing when the read runs past
   the end); every other type only materializes metadata, which the model
   records as an entry without content. -/

def unpackEntries (pkg : List Nat) :
    List FileMetadata → Option (List (FileMetadata × Option (List Nat)))
  | [] => some []
  | m :: t =>
      if m.fileType == 0 then
        match readBytesAt pkg m.offset m.fileSize with
        | none => none
        | some c => (unpackEntries pkg t).map (fun r => (m, some c) :: r)
      else
        (unpackEntries pkg t).map (fun r => (m, none) :: r)

/- FilePackager::unpackFiles (src/utils/FilePackager.cpp lines 236 to
   459): read the metadata offset from the first eight bytes, read the
   table there, then extract each record. some models a true return. -/

def FilePackager.unpackFiles (pkg : List Nat) :
    Option (List (FileMetadata × Option (List Nat))) := do
  let metadataOffset ← readLEAt pkg 0 8
  let ms ← FilePackager.readMetadata pkg metadataOffset
  unpackEntries pkg ms

/- Suffixes appended during symlink retargeting
   (src/core/tasks/BackupTask.cpp lines 150 to 183). -/

def dotHuff : List Char := ['.', 'h', 'u', 'f', 'f']

def dotEnc : List Char := ['.', 'e', 'n', 'c']

/- FileSystem::getRelativePath (src/utils/FileSystem.cpp lines 321 to
   332), modelled for a path lying strictly under the base directory: the
   base and its separator are stripped. This is the shape exercised in the
   retargeting claims. -/

def FileSystem.getRelativePath (path basePath : List Char) : List Char :=
  path.drop (basePath.length + 1)

/- The symlink-retargeting computation of BackupTask::execute
   (src/core/tasks/BackupTask.cpp lines 137 to 188). targetIsAbsolute and
   targetIsRegular model the is_absolute and is_regular_file checks on the
   resolved target. The packaging switch is in scope in the source but is
   never consulted here: the .enc suffix is appended whenever the password
   is non-empty. -/

def BackupTask.finalSymlinkTarget (sourcePath : List Char)
    (compressEnabled packageEnabled : Bool) (password : List Char)
    (targetIsAbsolute targetIsRegular : Bool)
    (absoluteTarget originalTarget : List Char) : List Char :=
  if targetIsAbsolute then
    if sourcePath.isPrefixOf absoluteTarget then
      if targetIsRegular then
        FileSystem.getRelativePath absoluteTarget sourcePath
          ++ (if compressEnabled then dotHuff else [])
          ++ (if password ≠ [] then dotEnc else [])
      else FileSystem.getRelativePath absoluteTarget sourcePath
    else absoluteTarget
  else
    if targetIsRegular then
      originalTarget
        ++ (if compressEnabled then dotHuff else [])
        ++ (if password ≠ [] then dotEnc else [])
    else originalTarget

/- A sample package input: one regular file named by byte 97 with the
   single content byte 65. -/

def e0pack : PackInput :=
  { filename := [97], fileType := 0, content := [65], isCompressed := 0,
    permissions := 420, creationTime := 1, lastModifiedTime := 2,
    lastAccessTime := 3, symlinkTarget := [] }

/- Concrete paths for the symlink-retargeting scenario: a source directory
   holding a regular file f.txt targeted by an absolute symlink. -/

def srcPathS : String := "/s"

def tgtPathS : String := "/s/f.txt"

def pwdS : String := "p"

def relS : String := "f.txt"

def relEncS : String := "f.txt.enc"

/- Model filesystem for FileSystem::getAllFiles
   (src/utils/FileSystem.cpp lines 200 to 313): a finite map from absolute
   component paths to node kinds. Symlink nodes store whether their target
   string is absolute and its components. -/

inductive NodeKind
  | dir
  | file
  | symlink (targetIsAbsolute : Bool) (target : List String)
deriving DecidableEq

structure World where
  nodes : List (List String × NodeKind)
deriving DecidableEq

def World.kindOf (w : World) (p : List String) : Option NodeKind :=
  (w.nodes.find? (fun e => e.1 == p)).map (fun e => e.2)

/- Resolve symlinks at the final component, bounded by fuel like the OS's
   symlink-following limit. -/

def World.resolveNode (w : World) : Nat → List String → Option (List String)
  | 0, _ => none
  | fuel + 1, p =>
      match w.kindOf p with
      | some (NodeKind.symlink ab t) =>
          w.resolveNode fuel (if ab then t else p.dropLast ++ t)
      | some _ => some p
      | none => none

/- Resolve every component of a path, as the kernel's path walk does. -/

def resolveFullGo (w : World) (fuel : Nat) : List String → List String → Option (List String)
  | acc, [] => some acc
  | acc, c :: rest =>
      match w.resolveNode fuel (acc ++ [c]) with
      | none => none
      | some r => resolveFullGo w fuel r rest

def World.resolveFull (w : World) (fuel : Nat) (p : List String) : Option (List String) :=
  resolveFullGo w fuel [] p

/- The dereferencing stat (fs::status): resolve the whole path. -/

def World.statThrough (w : World) (fuel : Nat) (p : List String) : Option NodeKind :=
  (w.resolveFull fuel p).bind (fun r => w.kindOf r)

def parentAndName (p : List String) : Option (List String × String) :=
  match p.reverse with
  | [] => none
  | c :: rest => some (rest.reverse, c)

/- The non-dereferencing stat (fs::symlink_status): resolve the parent,
   then read the final component literally. -/

def World.lstatKind (w : World) (fuel : Nat) (p : List String) : Option NodeKind :=
  match parentAndName p with
  | none => none
  | some (d, c) => (w.resolveFull fuel d).bind (fun rd => w.kindOf (rd ++ [c]))

/- Directory listing order is the order of the world's node list. -/

def World.childNames (w : World) (p : List String) : List String :=
  w.nodes.filterMap (fun e =>
    match parentAndName e.1 with
    | some (d, c) => if d == p then some c else none
    | none => none)

/- Phase 1 of getAllFiles (src/utils/FileSystem.cpp lines 212 to 219): the
   recursive directory iterator run with follow_directory_symlink. It
   yields every child path and descends whenever the dereferenced child is
   a directory — including children that are symlinks to directories, whose
   contents are then yielded under the symlink's own path. -/

def iterFollow (w : World) : Nat → List String → List (List String)
  | 0, _ => []
  | fuel + 1, p =>
      match w.resolveFull (fuel + 1) p with
      | none => []
      | some rp =>
          (w.childNames rp).flatMap (fun c =>
            (p ++ [c]) ::
              (match w.statThrough (fuel + 1) (p ++ [c]) with
               | some NodeKind.dir => iterFollow w fuel (p ++ [c])
               | _ => []))

/- Phase 2 of getAllFiles (src/utils/FileSystem.cpp lines 221 to 266): for
   every yielded symlink, compute its full target; when the target exists,
   lies under the source directory and was not collected yet, append it,
   and when it is a directory also append its recursively iterated
   contents (again following directory symlinks), skipping paths already
   processed. The state is the pair of the collected list and the
   processed set. -/

def phase2Step (w : World) (fuel : Nat) (rootDir : List String)
    (st : List (List String) × List (List String)) (f : List String) :
    List (List String) × List (List String) :=
  match w.lstatKind fuel f with
  | some (NodeKind.symlink ab t) =>
      match w.statThrough fuel (if ab then t else f.dropLast ++ t) with
      | some tk =>
          if rootDir.isPrefixOf (if ab then t else f.dropLast ++ t)
              && !(st.2.contains (if ab then t else f.dropLast ++ t)) then
            let files2 := st.1 ++ [if ab then t else f.dropLast ++ t]
            let proc2 := st.2 ++ [if ab then t else f.dropLast ++ t]
            if tk == NodeKind.dir then
              (iterFollow w fuel (if ab then t else f.dropLast ++ t)).foldl
                (fun s q => if s.2.contains q then s else (s.1 ++ [q], s.2 ++ [q]))
                (files2, proc2)
            else (files2, proc2)
          else st
      | none => st
  | _ => st

def getAllFilesPhase2 (w : World) (fuel : Nat) (rootDir : List String)
    (files1 : List (List String)) : List (List String) :=
  (files1.foldl (phase2Step w fuel rootDir) (files1, files1)).1

/- Phase 3 of getAllFiles (src/utils/FileSystem.cpp lines 268 to 288):
   walk the literal directory tree (symlink_status classification, so
   symlinks are not entered) and append any directory not collected yet. -/

def collectEmptyDirs (w : World) : Nat → List String → List (List String) → List (List String)
  | 0, _, files => files
  | fuel + 1, p, files =>
      (w.childNames p).foldl
        (fun fs c =>
          match w.kindOf (p ++ [c]) with
          | some NodeKind.dir =>
              collectEmptyDirs w fuel (p ++ [c])
                (if fs.contains (p ++ [c]) then fs else fs ++ [p ++ [c]])
          | _ => fs)
        files

/- Phase 4 of getAllFiles (src/utils/FileSystem.cpp lines 290 to 308): the
   final sort — symlinks first, then regular files, then directories, then
   the remaining kinds, ties broken by the full path string. The
   comparator is modelled with insertion sort; on worlds where it is a
   strict total order this agrees with std::sort. -/

def pathChars (p : List String) : List Char :=
  p.foldl (fun acc c => acc ++ sepChar :: c.data) []

/- Byte-wise lexicographic comparison of the joined path strings, matching
   operator< on std::string for the ASCII names used here. -/

def charListLt : List Char → List Char → Bool
  | [], [] => false
  | [], _ :: _ => true
  | _ :: _, [] => false
  | a :: as, b :: bs =>
      if a.toNat < b.toNat then true
      else if b.toNat < a.toNat then false
      else charListLt as bs

def isSymKind : Option NodeKind → Bool
  | some (NodeKind.symlink _ _) => true
  | _ => false

def isRegKind : Option NodeKind → Bool
  | some NodeKind.file => true
  | _ => false

def isDirKind : Option NodeKind → Bool
  | some NodeKind.dir => true
  | _ => false

def fileLt (a b : List String × Option NodeKind) : Bool :=
  if isSymKind a.2 && !isSymKind b.2 then true
  else if !isSymKind a.2 && isSymKind b.2 then false
  else if isRegKind a.2 && !isRegKind b.2 then true
  else if !isRegKind a.2 && isRegKind b.2 then false
  else if isDirKind a.2 && !isDirKind b.2 then true
  else if !isDirKind a.2 && isDirKind b.2 then false
  else charListLt (pathChars a.1) (pathChars b.1)

def insertSortedBy {α : Type} (lt : α → α → Bool) (x : α) : List α → List α
  | [] => [x]
  | y :: t => if lt x y then x :: y :: t else y :: insertSortedBy lt x t

def sortFilesBy {α : Type} (lt : α → α → Bool) (l : List α) : List α :=
  l.foldr (insertSortedBy lt) []

/- FileSystem::getAllFiles (src/utils/FileSystem.cpp lines 200 to 313):
   returns the collected entries, each classified like the File model does
   (symlink_status, src/core/models/File.cpp lines 36 to 57). The walk is
   empty unless the root itself is literally a directory. -/

def FileSystem.getAllFiles (w : World) (fuel : Nat) (directory : List String) :
    List (List String × Option NodeKind) :=
  match w.kindOf directory with
  | some NodeKind.dir =>
      sortFilesBy fileLt
        ((collectEmptyDirs w fuel directory
            (getAllFilesPhase2 w fuel directory (iterFollow w fuel directory))).map
          (fun p => (p, w.lstatKind fuel p)))
  | _ => []

/- Component names of the concrete walker scenario: a source directory s
   holding a real subdirectory d with one regular file f, and a symlink
   named link whose absolute target is the subdirectory d. -/

def nameS : String := "s"

def nameD : String := "d"

def nameF : String := "f"

def nameLink : String := "link"

def w0 : World :=
  { nodes := [([nameS], NodeKind.dir),
              ([nameS, nameD], NodeKind.dir),
              ([nameS, nameD, nameF], NodeKind.file),
              ([nameS, nameLink], NodeKind.symlink true [nameS, nameD])] }

-- ===================== THEOREMS =====================

set_option maxRecDepth 10000

/-- C1: the Huffman round trip fails on the code. For the 512-byte input
consisting solely of byte 97, compressFile succeeds and writes the
single-symbol stream (padding 0, one table entry, frequency 512, original
size 512, empty body), but decompressFile rejects that very stream: with an
empty body it decodes zero bytes, detects the size mismatch and fails, so
decode of encode of the input does not reproduce the input. -/
theorem huffman_roundtrip_fails_on_uniform_input :
    HuffmanCompressor.compressFile (List.replicate 512 97)
      = some [0, 1, 97, 0, 2, 0, 0, 0, 2, 0, 0]
    ∧ HuffmanCompressor.decompressFile [0, 1, 97, 0, 2, 0, 0, 0, 2, 0, 0] = none := by
  constructor
  · decide
  · decide

/-- C6: for a single distinct byte the encoder side behaves as specified —
the tree is a single leaf, the code of the sole symbol is empty and the bit
body is empty — but the decoder has no special case for it: on the emitted
stream it consumes no bits, emits nothing, fails the original-size check
and returns failure instead of emitting the symbol original_size times. -/
theorem huffman_single_leaf_decoder_fails :
    buildHuffmanTree [(97, 512)] = some (HuffmanNode.leaf 97 512 0)
    ∧ generateCodes (HuffmanNode.leaf 97 512 0) [] = [(97, [])]
    ∧ bitsToBytes ((List.replicate 512 97).flatMap (codeOf [(97, [])])) = []
    ∧ HuffmanCompressor.decompressFile [0, 1, 97, 0, 2, 0, 0, 0, 2, 0, 0] = none := by
  refine ⟨by decide, by decide, by decide, by decide⟩

/-- Counterexample for C5: the codec itself decides by size. The 511-byte
uniform input is written as a raw copy by HuffmanCompressor::compressFile
(small-file fallback), while the 512-byte uniform input is written as a
Huffman stream; the pipeline wrapper FileSystem::compressFile then discards
the non-shrinking raw copy. So the keep-or-discard decision is taken inside
the codec, not only in the pipeline. -/
theorem codec_size_guard_counterexample :
    HuffmanCompressor.compressFile (List.replicate 511 97)
      = some (List.replicate 511 97)
    ∧ HuffmanCompressor.compressFile (List.replicate 512 97)
        = some [0, 1, 97, 0, 2, 0, 0, 0, 2, 0, 0]
    ∧ FileSystem.compressFile (List.replicate 511 97) = none := by
  refine ⟨by decide, by decide, by decide⟩

/-- C5 amended: the codec itself falls back to a raw copy based on size —
every input shorter than 512 bytes is emitted verbatim by
HuffmanCompressor::compressFile — and the pipeline layer additionally
discards outputs that did not shrink. -/
theorem codec_small_input_raw_copy (x : List Nat) (h : x.length < 512) :
    HuffmanCompressor.compressFile x = some x := by
  unfold HuffmanCompressor.compressFile
  rw [if_pos h]

/-- Witness for the amended C5 at the one-byte input 97. -/
theorem codec_small_input_raw_copy_witness :
    ([97] : List Nat).length < 512 ∧ HuffmanCompressor.compressFile [97] = some [97] :=
  ⟨by decide, codec_small_input_raw_copy [97] (by decide)⟩

/-- Counterexample for C2: decoding a package whose eight-byte metadata
offset still holds the placeholder 0 does not fail. unpackFiles reads the
count field out of the placeholder itself, parses it as 0, extracts no
entries and reports success, while the same package with the offset
patched extracts the packaged file. -/
theorem unpack_unpatched_package_reports_success :
    FilePackager.unpackFiles (FilePackager.packageFilesUnpatched [e0pack]) = some []
    ∧ (FilePackager.unpackFiles (FilePackager.packageFiles [e0pack])).isSome = true
    ∧ FilePackager.unpackFiles (FilePackager.packageFiles [e0pack]) ≠ some [] := by
  refine ⟨by decide, by decide, by decide⟩

/-- C2 amended: for every package byte stream beginning with the zero
placeholder — in particular every package whose patch step never ran — the
decoder reports success and extracts zero entries: the offset 0 points at
the placeholder, whose first four bytes parse as the record count 0. -/
theorem unpack_zero_offset_succeeds_empty (tail : List Nat) :
    FilePackager.unpackFiles (toLEBytes 8 0 ++ tail) = some [] := by
  show FilePackager.unpackFiles (0 :: 0 :: 0 :: 0 :: 0 :: 0 :: 0 :: 0 :: tail) = some []
  simp [FilePackager.unpackFiles, FilePackager.readMetadata, readLEAt, readBytesAt,
        natOfLE, readMetadataLoop, unpackEntries, List.take, List.drop, Nat.le_add_left]

/-- Counterexample for C7: the tree walker does descend through a symlink
into the directory it points to. In the world w0 the entry s/link is a
symlink to the real directory s/d, yet getAllFiles yields the path
s/link/f, which passes through that symlink — the followed iterator and
the explicit symlink-target collection both enter symlinked directories. -/
theorem getAllFiles_descends_through_symlink :
    FileSystem.getAllFiles w0 8 [nameS]
      = [([nameS, nameLink], some (NodeKind.symlink true [nameS, nameD])),
         ([nameS, nameD, nameF], some NodeKind.file),
         ([nameS, nameLink, nameF], some NodeKind.file),
         ([nameS, nameD], some NodeKind.dir)]
    ∧ World.kindOf w0 [nameS, nameLink]
        = some (NodeKind.symlink true [nameS, nameD]) := by
  refine ⟨by decide, by decide⟩

/-- C7 amended: the walker yields symlinks as Symlink-classified leaves,
but it follows directory symlinks during enumeration: besides the symlink
leaf s/link and the real file s/d/f it also yields s/link/f, the same file
reached through the symlinked directory. -/
theorem getAllFiles_symlink_leaf_and_descent :
    (FileSystem.getAllFiles w0 8 [nameS]).map (fun e => e.1)
      = [[nameS, nameLink], [nameS, nameD, nameF], [nameS, nameLink, nameF], [nameS, nameD]]
    ∧ (FileSystem.getAllFiles w0 8 [nameS]).map (fun e => isSymKind e.2)
        = [true, false, false, false] := by
  refine ⟨by decide, by decide⟩

theorem isPrefixOf_append_self (l t : List Char) : l.isPrefixOf (l ++ t) = true := by
  induction l with
  | nil => simp [List.isPrefixOf]
  | cons a as ih => simp [List.isPrefixOf, ih]

/-- Counterexample for C3: with compression off, packaging ON and a
non-empty password, the absolute symlink target /s/f.txt pointing at a
regular file under the source /s is rewritten to f.txt.enc — the .enc
suffix is appended even though packaging is enabled, where the claim
requires the bare relative target f.txt. -/
theorem symlink_retarget_enc_counterexample :
    BackupTask.finalSymlinkTarget srcPathS.toList false true pwdS.toList true true
        tgtPathS.toList [] = relEncS.toList
    ∧ relEncS.toList ≠ relS.toList := by
  refine ⟨by decide, by decide⟩

/-- C3 amended: for an absolute target source ++ / ++ r naming a Regular
file under the source directory, the stored link value becomes r with
.huff appended exactly when compression is enabled and .enc appended
exactly when the password is non-empty — independently of the packaging
switch. -/
theorem symlink_retarget_appends_enc_whenever_password
    (src r pwd orig : List Char) (compress package : Bool) :
    BackupTask.finalSymlinkTarget src compress package pwd true true
        (src ++ sepChar :: r) orig
      = r ++ (if compress then dotHuff else []) ++ (if pwd ≠ [] then dotEnc else []) := by
  have hdrop : (src ++ sepChar :: r).drop (src.length + 1) = r := by
    rw [List.append_cons]
    have hlen : (src ++ [sepChar]).length = src.length + 1 := by simp
    rw [← hlen, List.drop_left]
  unfold BackupTask.finalSymlinkTarget FileSystem.getRelativePath
  simp [isPrefixOf_append_self, hdrop]

theorem sepMap_sepMap (c : Char) : sepMap (sepMap c) = sepMap c := by
  unfold sepMap
  by_cases h : (c == sepChar || c == backslashChar) = true
  · simp [h]
  · simp [h]

theorem mapSeparators_idem (s : List Char) :
    mapSeparators (mapSeparators s) = mapSeparators s := by
  induction s with
  | nil => rfl
  | cons c t ih =>
      simp only [mapSeparators, List.map_cons] at *
      exact congrArg₂ List.cons (sepMap_sepMap c) ih

theorem isAbsolutePath_mapSeparators (s : List Char) (h : isAbsolutePath s = true) :
    isAbsolutePath (mapSeparators s) = true := by
  cases s with
  | nil => simp [isAbsolutePath] at h
  | cons c t =>
      simp only [isAbsolutePath] at h ⊢
      simp only [mapSeparators, List.map_cons]
      have hc : c = sepChar := by
        have := of_decide_eq_true h
        exact this
      subst hc
      simp [sepMap]

theorem isAbsolutePath_append_single (s : List Char) (c : Char) (h : isAbsolutePath s = true) :
    isAbsolutePath (s ++ [c]) = true := by
  cases s with
  | nil => simp [isAbsolutePath] at h
  | cons a t => simpa [isAbsolutePath] using h

theorem fsAbsolute_absolute (cwd p : List Char) (hcwd : isAbsolutePath cwd = true) :
    isAbsolutePath (fsAbsolute cwd p) = true := by
  unfold fsAbsolute
  by_cases h : isAbsolutePath p = true
  · rw [if_pos h]; exact h
  · rw [if_neg (by simpa using h)]
    cases cwd with
    | nil => simp [isAbsolutePath] at hcwd
    | cons a t => simpa [isAbsolutePath] using hcwd

theorem normalizePath_absolute (cwd p : List Char) (hcwd : isAbsolutePath cwd = true) :
    isAbsolutePath (PathFilter.normalizePath cwd p) = true := by
  have hmap := isAbsolutePath_mapSeparators _ (fsAbsolute_absolute cwd p hcwd)
  unfold PathFilter.normalizePath
  by_cases he : endsWithSep (mapSeparators (fsAbsolute cwd p)) = true
  · rw [if_pos he]; exact hmap
  · rw [if_neg (by simpa using he)]
    exact isAbsolutePath_append_single _ _ hmap

theorem endsWithSep_normalizePath (cwd p : List Char) :
    endsWithSep (PathFilter.normalizePath cwd p) = true := by
  unfold PathFilter.normalizePath
  by_cases he : endsWithSep (mapSeparators (fsAbsolute cwd p)) = true
  · rw [if_pos he]; exact he
  · rw [if_neg (by simpa using he)]
    simp [endsWithSep, List.getLast?_concat]

theorem mapSeparators_normalizePath (cwd p : List Char) :
    mapSeparators (PathFilter.normalizePath cwd p) = PathFilter.normalizePath cwd p := by
  unfold PathFilter.normalizePath
  by_cases he : endsWithSep (mapSeparators (fsAbsolute cwd p)) = true
  · rw [if_pos he]; exact mapSeparators_idem (fsAbsolute cwd p)
  · rw [if_neg (by simpa using he)]
    unfold mapSeparators
    rw [List.map_append]
    rw [show List.map sepMap (List.map sepMap (fsAbsolute cwd p))
          = List.map sepMap (fsAbsolute cwd p) from mapSeparators_idem (fsAbsolute cwd p)]
    simp [sepMap]

theorem normalizePath_fixed_point (cwd s : List Char)
    (habs : isAbsolutePath s = true) (hend : endsWithSep s = true)
    (hmap : mapSeparators s = s) :
    PathFilter.normalizePath cwd s = s := by
  have h1 : fsAbsolute cwd s = s := by
    unfold fsAbsolute
    rw [if_pos habs]
  unfold PathFilter.normalizePath
  rw [h1, hmap, if_pos hend]

theorem normalizePath_idem (cwd p : List Char) (hcwd : isAbsolutePath cwd = true) :
    PathFilter.normalizePath cwd (PathFilter.normalizePath cwd p)
      = PathFilter.normalizePath cwd p :=
  normalizePath_fixed_point cwd (PathFilter.normalizePath cwd p)
    (normalizePath_absolute cwd p hcwd)
    (endsWithSep_normalizePath cwd p)
    (mapSeparators_normalizePath cwd p)

/-- C9: for every stored list and every path, isPathExcluded is true if
and only if the normalized path is a member of the list, normalization is
idempotent, and isPathExcluded is invariant under prior normalization of
its argument; moreover, whenever the normalized path is absent from the
list, removing it is a no-op that still reports success. -/
theorem pathFilter_removal_and_normalization (cwd : List Char)
    (ex : List (List Char)) (p : List Char)
    (hcwd : isAbsolutePath cwd = true) :
    (PathFilter.normalizePath cwd p ∉ ex →
       PathFilter.removeExcludedPath cwd ex p = (ex, true))
    ∧ (PathFilter.isPathExcluded cwd ex p = true
         ↔ PathFilter.normalizePath cwd p ∈ ex)
    ∧ PathFilter.normalizePath cwd (PathFilter.normalizePath cwd p)
        = PathFilter.normalizePath cwd p
    ∧ PathFilter.isPathExcluded cwd ex p
        = PathFilter.isPathExcluded cwd ex (PathFilter.normalizePath cwd p) := by
  refine ⟨?_, ?_, normalizePath_idem cwd p hcwd, ?_⟩
  · intro habsent
    unfold PathFilter.removeExcludedPath
    rw [List.erase_of_not_mem habsent]
  · unfold PathFilter.isPathExcluded
    exact List.elem_iff
  · unfold PathFilter.isPathExcluded
    rw [normalizePath_idem cwd p hcwd]

/-- Witness for C9 at cwd = "/w", p = "x", with the stored list holding
exactly the normalized form /w/x/ of p, so the membership side of the iff
is exercised at a member instance. -/
theorem pathFilter_removal_and_normalization_witness :
    isAbsolutePath ['/', 'w'] = true
    ∧ ((PathFilter.normalizePath ['/', 'w'] ['x'] ∉ [['/', 'w', '/', 'x', '/']] →
          PathFilter.removeExcludedPath ['/', 'w'] [['/', 'w', '/', 'x', '/']] ['x']
            = ([['/', 'w', '/', 'x', '/']], true))
       ∧ (PathFilter.isPathExcluded ['/', 'w'] [['/', 'w', '/', 'x', '/']] ['x'] = true
            ↔ PathFilter.normalizePath ['/', 'w'] ['x'] ∈ [['/', 'w', '/', 'x', '/']])
       ∧ PathFilter.normalizePath ['/', 'w'] (PathFilter.normalizePath ['/', 'w'] ['x'])
           = PathFilter.normalizePath ['/', 'w'] ['x']
       ∧ PathFilter.isPathExcluded ['/', 'w'] [['/', 'w', '/', 'x', '/']] ['x']
           = PathFilter.isPathExcluded ['/', 'w'] [['/', 'w', '/', 'x', '/']]
               (PathFilter.normalizePath ['/', 'w'] ['x'])) :=
  ⟨by decide,
   pathFilter_removal_and_normalization ['/', 'w'] [['/', 'w', '/', 'x', '/']] ['x']
     (by decide)⟩

/-- C10: FileSystem::copyFile compares an existing destination with the
source only through (size, mtime): when both agree the destination is left
unchanged even though its bytes differ from the source, and the call
reports success; a destination that is a symlink is likewise left in place
with success and the file is never written. -/
theorem copyFile_trusts_size_and_mtime (src c : List Nat) (m : Int)
    (hsize : c.length = src.length) :
    FileSystem.copyFile src m (DestState.fileDest c m) = (true, DestState.fileDest c m)
    ∧ ∀ t : List Char,
        FileSystem.copyFile src m (DestState.symlinkDest t)
          = (true, DestState.symlinkDest t) := by
  constructor
  · unfold FileSystem.copyFile
    simp [hsize]
  · intro t
    rfl

/-- Witness for C10: source [1], destination content [2] (different byte,
same length, same mtime) is left untouched. -/
theorem copyFile_trusts_size_and_mtime_witness :
    List.length [2] = List.length [1]
    ∧ (FileSystem.copyFile [1] 0 (DestState.fileDest [2] 0)
         = (true, DestState.fileDest [2] 0)
       ∧ ∀ t : List Char,
           FileSystem.copyFile [1] 0 (DestState.symlinkDest t)
             = (true, DestState.symlinkDest t)) :=
  ⟨by decide, copyFile_trusts_size_and_mtime [1] [2] 0 (by decide)⟩

/-- C4: BackupTask::execute accepts no cancel flag and polls none: its
outcome is independent of any requested interrupt, and the final status is
always Completed or Failed, never a cancelled state. The repository's own
test suite (TaskTests.cpp, BackupTaskInterrupt) passes an interrupt flag
and expects a CANCELLED status, which this execute cannot produce. -/
theorem backupTask_execute_ignores_interrupt :
    ∀ (c : BackupRunConditions) (i j : Bool),
      BackupTask.execute c i = BackupTask.execute c j
      ∧ ((BackupTask.execute c i).2 = TaskStatus.completed
         ∨ (BackupTask.execute c i).2 = TaskStatus.failed) := by
  intro c i j
  obtain ⟨s, d, fe, af, pe, ps, pw, es⟩ := c
  refine ⟨rfl, ?_⟩
  revert i s d fe af pe ps pw es
  decide

/-- C8: the TaskStatus enumeration of src/core/Types.hpp contains exactly
Pending, Running, Completed and Failed; no status prints as CANCELLED, so
the cancelled terminal state expected by the test suite is not
representable. -/
theorem taskStatus_lacks_cancelled :
    ∀ s : TaskStatus,
      TaskStatus.toString s ≠ cancelledName
      ∧ (s = TaskStatus.pending ∨ s = TaskStatus.running
         ∨ s = TaskStatus.completed ∨ s = TaskStatus.failed) := by
  intro s
  cases s <;> exact ⟨by decide, by simp⟩
